import Mathlib

/-!
Shallow embedding of the REFORMMED monitor agent (src/agent.py): the bounded
send queue, the sampler loop of `main`, the delivery worker `sender_thread`
with its consecutive-failure tracking, the registration handshake `register`,
and the network-rate computation inside `collect_metrics`.
-/

set_option maxRecDepth 10000

namespace Agent

/-- Capacity of the send queue: `send_queue = queue.Queue(maxsize=300)`. -/
def QUEUE_CAPACITY : ℕ := 300

/-- The bounded FIFO queue, modelled as the list of buffered items with the
head being the oldest item (the next one `get` would return). -/
structure BQueue (α : Type) where
  items : List α
deriving DecidableEq

/-- Python `Queue.qsize()`. -/
def BQueue.size {α : Type} (q : BQueue α) : ℕ := q.items.length

/-- Python `Queue.full()`: the size has reached `maxsize`. -/
def BQueue.full {α : Type} (q : BQueue α) : Bool :=
  decide (QUEUE_CAPACITY ≤ q.size)

/-- The producer's guarded enqueue in `main`:
`if not send_queue.full(): send_queue.put(data)`. It is a total function —
with the single producer the guarded `put` is only reached on a non-full
queue, so the attempt never blocks; when the queue is full the produced item
is simply dropped. -/
def offer {α : Type} (q : BQueue α) (a : α) : BQueue α :=
  if q.full then q else ⟨q.items ++ [a]⟩

/-- Offering a whole sequence of produced snapshots in order, the consumer
never draining. -/
def offerAll {α : Type} (q : BQueue α) (xs : List α) : BQueue α :=
  xs.foldl offer q

lemma full_iff {α : Type} (q : BQueue α) :
    q.full = true ↔ QUEUE_CAPACITY ≤ q.items.length := by
  simp [BQueue.full, BQueue.size]

lemma offerAll_items {α : Type} (xs : List α) :
    ∀ q : BQueue α, q.items.length ≤ QUEUE_CAPACITY →
      (offerAll q xs).items =
        q.items ++ xs.take (QUEUE_CAPACITY - q.items.length) := by
  induction xs with
  | nil => intro q _; simp [offerAll]
  | cons x xs ih =>
      intro q h
      have hstep : offerAll q (x :: xs) = offerAll (offer q x) xs := by
        simp [offerAll]
      by_cases hfull : QUEUE_CAPACITY ≤ q.items.length
      · have hlen : q.items.length = QUEUE_CAPACITY := le_antisymm h hfull
        have hq : offer q x = q := by
          simp [offer, (full_iff q).2 hfull]
        rw [hstep, hq, ih q h, hlen]
        simp
      · have hlt : q.items.length < QUEUE_CAPACITY := lt_of_not_ge hfull
        have hq : offer q x = ⟨q.items ++ [x]⟩ := by
          have : q.full = false := by
            rcases Bool.eq_false_or_eq_true q.full with ht | hf
            · exact absurd ((full_iff q).1 ht) hfull
            · exact hf
          simp [offer, this]
        obtain ⟨k, hk⟩ : ∃ k, QUEUE_CAPACITY - q.items.length = k + 1 :=
          ⟨QUEUE_CAPACITY - q.items.length - 1, by omega⟩
        have hlen' : (q.items ++ [x]).length ≤ QUEUE_CAPACITY := by
          simp; omega
        have hk' : QUEUE_CAPACITY - (q.items ++ [x]).length = k := by
          simp; omega
        rw [hstep, hq, ih _ hlen', hk', hk, List.take_succ_cons]
        simp

/-- C1: for every sequence of snapshots offered to the bounded queue
(capacity 300) with the consumer never draining, the queue holds exactly
`min (length, capacity)` items, in arrival (FIFO) order they are exactly the
first `capacity` produced items; once the queue is full a newly produced
snapshot is discarded (drop-newest) leaving the contents untouched, and a
non-full enqueue appends at the tail. The enqueue attempt is a total
function — it never blocks. -/
theorem C1_bounded_queue_fifo (xs : List ℕ) (q : BQueue ℕ) (a : ℕ) :
    QUEUE_CAPACITY = 300 ∧
    (offerAll (BQueue.mk []) xs).items = xs.take QUEUE_CAPACITY ∧
    (offerAll (BQueue.mk []) xs).size = min xs.length QUEUE_CAPACITY ∧
    (q.full = true → offer q a = q) ∧
    (q.full = false → offer q a = BQueue.mk (q.items ++ [a])) := by
  refine ⟨rfl, ?_, ?_, ?_, ?_⟩
  · have := offerAll_items xs (BQueue.mk []) (by simp)
    simpa using this
  · have := offerAll_items xs (BQueue.mk []) (by simp)
    simp [BQueue.size] at this ⊢
    rw [this]
    simp [Nat.min_comm]
  · intro hf; simp [offer, hf]
  · intro hf; simp [offer, hf]

/-- Witness for C1 at concrete inputs: a full queue rejects the new item and
keeps its contents, and an empty queue appends. -/
theorem C1_bounded_queue_fifo_witness :
    (BQueue.mk (List.replicate 300 (0 : ℕ))).full = true ∧
    offer (BQueue.mk (List.replicate 300 (0 : ℕ))) 7 =
      BQueue.mk (List.replicate 300 (0 : ℕ)) ∧
    (BQueue.mk ([] : List ℕ)).full = false ∧
    offer (BQueue.mk ([] : List ℕ)) 7 = BQueue.mk [7] :=
  ⟨by decide,
   (C1_bounded_queue_fifo [] (BQueue.mk (List.replicate 300 0)) 7).2.2.2.1
     (by decide),
   by decide,
   (C1_bounded_queue_fifo [] (BQueue.mk []) 7).2.2.2.2 (by decide)⟩

/-! Sampler loop of `main`: each iteration records `loop_start`, runs
`collect_metrics()` inside a try/except, offers the result to the queue on
success, logs and skips on failure, and then sleeps
`max(0, SEND_INTERVAL - elapsed)` with `elapsed` measured from `loop_start`. -/

/-- Outcome of one `collect_metrics()` invocation: a snapshot, or a raised
exception caught by the `except` branch. -/
inductive CollectResult (α : Type) where
  | ok (s : α)
  | err (msg : String)
deriving DecidableEq

/-- State carried across sampler iterations: the send queue, the wall clock
(value of `time.time()` when the next iteration starts), and the `sent`
counter. -/
structure SamplerState (α : Type) where
  q : BQueue α
  clock : ℚ
  sent : ℕ
deriving DecidableEq

/-- Result of one sampler iteration: the successor state, the duration of
the `time.sleep` call, and the log lines emitted. -/
structure IterResult (α : Type) where
  state : SamplerState α
  sleep : ℚ
  logs : List String
deriving DecidableEq

/-- One iteration of the `while True` loop in `main`, given the outcome of
`collect_metrics()` and the wall-clock duration `dur` of the
collection-plus-enqueue work: `loop_start = time.time()`; on success the
snapshot is offered to the queue and `sent` is incremented, on a raised
error the failure is logged and nothing else happens; then
`elapsed = time.time() - loop_start` and `time.sleep(max(0, SEND_INTERVAL -
elapsed))`. -/
def samplerIter {α : Type} (interval : ℚ) (st : SamplerState α)
    (res : CollectResult α) (dur : ℚ) : IterResult α :=
  let loopStart := st.clock
  let afterWork := loopStart + dur
  let elapsed := afterWork - loopStart
  let sleep := max 0 (interval - elapsed)
  match res with
  | .ok s =>
      { state := { q := offer st.q s, clock := afterWork + sleep,
                   sent := st.sent + 1 },
        sleep := sleep, logs := [] }
  | .err m =>
      { state := { q := st.q, clock := afterWork + sleep, sent := st.sent },
        sleep := sleep, logs := ["Collect error: " ++ m] }

/-- Running the sampler loop over a whole schedule of iteration outcomes.
The loop has no termination path: it consumes every scheduled iteration. -/
def runSampler {α : Type} (interval : ℚ) (st : SamplerState α) :
    List (CollectResult α × ℚ) → SamplerState α
  | [] => st
  | (r, d) :: rest => runSampler interval (samplerIter interval st r d).state rest

/-- C2: in every sampler iteration, if the collection-plus-enqueue work took
wall-clock time `T` and the cadence is `I`, the sleep before the next
iteration is exactly `max 0 (I - T)` — computed from the recorded start
instant — and whenever `T ≥ I` the sleep is `0` and the next iteration
starts immediately (the clock advances by exactly `T`). -/
theorem C2_drift_corrected_sleep {α : Type} (I T : ℚ) (st : SamplerState α)
    (res : CollectResult α) :
    (samplerIter I st res T).sleep = max 0 (I - T) ∧
    (I ≤ T →
      (samplerIter I st res T).sleep = 0 ∧
      (samplerIter I st res T).state.clock = st.clock + T) := by
  have hel : st.clock + T - st.clock = T := by ring
  constructor
  · cases res <;> simp [samplerIter, hel]
  · intro hIT
    have hz : max 0 (I - T) = 0 := by
      have : I - T ≤ 0 := by linarith
      exact max_eq_left this
    cases res <;> simp [samplerIter, hel, hz]

/-- Witness for C2 at concrete inputs: cadence 1, a slow iteration of
duration 2 sleeps 0 and the next iteration starts immediately. -/
theorem C2_drift_corrected_sleep_witness :
    (samplerIter (1 : ℚ) (SamplerState.mk (BQueue.mk ([] : List ℕ)) 0 0)
        (CollectResult.ok 5) 2).sleep = max 0 (1 - 2) ∧
    (samplerIter (1 : ℚ) (SamplerState.mk (BQueue.mk ([] : List ℕ)) 0 0)
        (CollectResult.ok 5) 2).sleep = 0 ∧
    (samplerIter (1 : ℚ) (SamplerState.mk (BQueue.mk ([] : List ℕ)) 0 0)
        (CollectResult.ok 5) 2).state.clock = 0 + 2 :=
  ⟨(C2_drift_corrected_sleep 1 2 _ _).1,
   ((C2_drift_corrected_sleep 1 2 _ _).2 (by norm_num)).1,
   ((C2_drift_corrected_sleep 1 2 _ _).2 (by norm_num)).2⟩

/-- C6: a sampler iteration whose collection raises logs the failure,
produces no snapshot (the `sent` counter is unchanged), performs no queue
interaction (the queue is unchanged), and still sleeps `max 0 (I - T)`
computed from the original iteration start instant; the loop then continues
with the following iterations — a collection error never terminates the
sampler loop. -/
theorem C6_collection_failure_skips_iteration {α : Type} (I T : ℚ)
    (st : SamplerState α) (m : String)
    (steps : List (CollectResult α × ℚ)) :
    (samplerIter I st (.err m) T).state.q = st.q ∧
    (samplerIter I st (.err m) T).state.sent = st.sent ∧
    (samplerIter I st (.err m) T).logs = ["Collect error: " ++ m] ∧
    (samplerIter I st (.err m) T).sleep = max 0 (I - T) ∧
    runSampler I st ((CollectResult.err m, T) :: steps) =
      runSampler I (samplerIter I st (.err m) T).state steps := by
  have hel : st.clock + T - st.clock = T := by ring
  exact ⟨by simp [samplerIter], by simp [samplerIter],
         by simp [samplerIter], by simp [samplerIter, hel], rfl⟩

/-! Delivery worker `sender_thread` and `send_metrics`: one blocking `get`
per iteration, a `None` payload is the shutdown sentinel, a single POST with
5s timeout, success is status 200, the consecutive-failure counter
`failed_count` drives the throttled warning and the recovery notice. -/

/-- Outcome the network produces for one delivery attempt: a raised
exception (transport error / timeout) or an HTTP status code. -/
inductive SendResult where
  | exn (e : String)
  | status (code : ℕ)
deriving DecidableEq

/-- Model of `send_metrics`: `SESSION.post(...)` wrapped in try/except,
returning `r.status_code == 200`, with every raised exception turned into
`False`. -/
def send_metrics (r : SendResult) : Bool :=
  match r with
  | .status code => code == 200
  | .exn _ => false

/-- Log events the delivery worker can emit. -/
inductive SenderEvent where
  | restored
  | unreachableWarn
deriving DecidableEq

/-- One iteration body of `sender_thread` after a payload was dequeued,
given the current `failed_count`: on success, emit "Connection restored"
iff the streak was non-zero and reset the streak; on failure, increment the
streak and warn iff the new count is `≡ 1 [MOD 10]`. Returns the new
`failed_count` and the events emitted. -/
def senderStep (failed : ℕ) (r : SendResult) : ℕ × List SenderEvent :=
  if send_metrics r then
    (0, if 0 < failed then [.restored] else [])
  else
    (failed + 1, if (failed + 1) % 10 == 1 then [.unreachableWarn] else [])

/-- Running the worker body over a sequence of delivery outcomes. -/
def senderRun (failed : ℕ) : List SendResult → ℕ × List SenderEvent
  | [] => (failed, [])
  | r :: rs =>
      ((senderRun (senderStep failed r).1 rs).1,
       (senderStep failed r).2 ++ (senderRun (senderStep failed r).1 rs).2)

/-- The full worker loop of `sender_thread` over the queue contents: each
entry is the dequeued payload (`none` is the shutdown sentinel, which
breaks the loop) paired with the network outcome its single delivery
attempt would get. Returns the final `failed_count`, the emitted events,
and the payloads that were actually offered to `send_metrics`, in order. -/
def sender_thread {α : Type} (failed : ℕ) :
    List (Option α × SendResult) → ℕ × List SenderEvent × List α
  | [] => (failed, [], [])
  | (none, _) :: _ => (failed, [], [])
  | (some p, r) :: rest =>
      ((sender_thread (senderStep failed r).1 rest).1,
       (senderStep failed r).2 ++ (sender_thread (senderStep failed r).1 rest).2.1,
       p :: (sender_thread (senderStep failed r).1 rest).2.2)

lemma senderRun_all_fail (rs : List SendResult) :
    ∀ f : ℕ, (∀ r ∈ rs, send_metrics r = false) →
      senderRun f rs =
        (f + rs.length,
         ((List.range rs.length).map fun j =>
            if (f + j + 1) % 10 = 1 then [SenderEvent.unreachableWarn]
            else []).flatten) := by
  induction rs with
  | nil => intro f _; simp [senderRun]
  | cons r rs ih =>
      intro f hfail
      have hr : send_metrics r = false := hfail r (by simp)
      have hstep : senderStep f r =
          (f + 1, if (f + 1) % 10 = 1 then [SenderEvent.unreachableWarn]
                  else []) := by
        simp [senderStep, hr]
      have hrest := ih (f + 1) (fun x hx => hfail x (by simp [hx]))
      simp only [senderRun, hstep, hrest, List.length_cons,
        List.range_succ_eq_map, List.map_cons, List.map_map,
        List.flatten_cons, Nat.add_zero, Nat.zero_add, Prod.mk.injEq]
      refine ⟨by omega, ?_⟩
      congr 1
      refine congrArg List.flatten (List.map_congr_left ?_)
      intro j _
      simp only [Function.comp_apply, Nat.succ_eq_add_one]
      have hjj : f + 1 + j + 1 = f + (j + 1) + 1 := by omega
      rw [hjj]

lemma senderRun_all_fail_no_restored (rs : List SendResult) :
    ∀ f : ℕ, (∀ r ∈ rs, send_metrics r = false) →
      SenderEvent.restored ∉ (senderRun f rs).2 := by
  induction rs with
  | nil => intro f _; simp [senderRun]
  | cons r rs ih =>
      intro f hfail
      have hr : send_metrics r = false := hfail r (by simp)
      have hrest := ih (senderStep f r).1 (fun x hx => hfail x (by simp [hx]))
      simp only [senderRun, List.mem_append]
      rintro (h | h)
      · have hs2 : (senderStep f r).2 =
            if (f + 1) % 10 == 1 then [SenderEvent.unreachableWarn]
            else [] := by
          simp [senderStep, hr]
        rw [hs2] at h
        split at h <;> simp at h
      · exact hrest h

/-- C3: starting from a zero failure streak, across a run of `m ≥ 1`
consecutive delivery failures a warning is emitted exactly at the failures
whose 1-based index is congruent to 1 modulo 10 (the event trace is the
concatenation, over failure indices, of one warning exactly when the index
is ≡ 1 mod 10 and nothing otherwise), for a total of `(m - 1) / 10 + 1`
warnings; no other event is emitted. -/
theorem C3_throttled_warnings (m : ℕ) (hm : 1 ≤ m) (rs : List SendResult)
    (hlen : rs.length = m) (hfail : ∀ r ∈ rs, send_metrics r = false) :
    (senderRun 0 rs).2 =
      ((List.range m).map fun j =>
        if (j + 1) % 10 = 1 then [SenderEvent.unreachableWarn]
        else []).flatten ∧
    (senderRun 0 rs).2.length = (m - 1) / 10 + 1 ∧
    (senderRun 0 rs).2.count SenderEvent.unreachableWarn =
      (m - 1) / 10 + 1 := by
  have h := senderRun_all_fail rs 0 hfail
  rw [hlen] at h
  have hflat : ∀ n : ℕ,
      (((List.range n).map fun j =>
        if (j + 1) % 10 = 1 then [SenderEvent.unreachableWarn]
        else []).flatten).length = (n + 9) / 10 := by
    intro n
    induction n with
    | zero => simp
    | succ k ihk =>
        rw [List.range_succ, List.map_append, List.flatten_append,
          List.length_append, ihk]
        by_cases hk : (k + 1) % 10 = 1
        · simp [hk]; omega
        · simp [hk]; omega
  have hev : (senderRun 0 rs).2 =
      ((List.range m).map fun j =>
        if (j + 1) % 10 = 1 then [SenderEvent.unreachableWarn]
        else []).flatten := by
    rw [h]
    simp only [Nat.zero_add]
  have hcnt : ∀ x ∈ (senderRun 0 rs).2, SenderEvent.unreachableWarn = x := by
    rw [hev]
    intro x hx
    simp only [List.mem_flatten, List.mem_map] at hx
    obtain ⟨l, ⟨j, -, hj⟩, hxl⟩ := hx
    subst hj
    split at hxl <;> simp_all
  refine ⟨hev, ?_, ?_⟩
  · rw [hev, hflat m]; omega
  · rw [List.count_eq_length.2 hcnt]
    rw [hev, hflat m]; omega

/-- Witness for C3 at a concrete run of 12 straight failures: warnings at
failures 1 and 11 only, two warnings in total. -/
theorem C3_throttled_warnings_witness :
    (senderRun 0 (List.replicate 12 (SendResult.exn "down"))).2 =
      ((List.range 12).map fun j =>
        if (j + 1) % 10 = 1 then [SenderEvent.unreachableWarn]
        else []).flatten ∧
    (senderRun 0 (List.replicate 12 (SendResult.exn "down"))).2.count
      SenderEvent.unreachableWarn = 2 :=
  ⟨(C3_throttled_warnings 12 (by decide)
      (List.replicate 12 (SendResult.exn "down")) (by decide)
      (by decide)).1,
   (C3_throttled_warnings 12 (by decide)
      (List.replicate 12 (SendResult.exn "down")) (by decide)
      (by decide)).2.2⟩

lemma senderRun_append (xs ys : List SendResult) :
    ∀ f : ℕ, senderRun f (xs ++ ys) =
      ((senderRun (senderRun f xs).1 ys).1,
       (senderRun f xs).2 ++ (senderRun (senderRun f xs).1 ys).2) := by
  induction xs with
  | nil => intro f; simp [senderRun]
  | cons x xs ih =>
      intro f
      simp only [List.cons_append, senderRun, List.append_eq, ih,
        List.append_assoc]

/-- C4: starting from a zero failure streak, after `k ≥ 1` consecutive
delivery failures followed by one successful delivery the consecutive-
failure count is 0, and exactly one "Connection restored" recovery event is
emitted across the whole run; a success arriving on a zero failure streak
emits no event at all. -/
theorem C4_failure_streak_reset (k : ℕ) (hk : 1 ≤ k) (rs : List SendResult)
    (hlen : rs.length = k) (hfail : ∀ r ∈ rs, send_metrics r = false)
    (s : SendResult) (hs : send_metrics s = true) :
    (senderRun 0 (rs ++ [s])).1 = 0 ∧
    (senderRun 0 (rs ++ [s])).2.count SenderEvent.restored = 1 ∧
    (∀ s2 : SendResult, send_metrics s2 = true → senderStep 0 s2 = (0, [])) := by
  have happ := senderRun_append rs [s] 0
  have hrun := senderRun_all_fail rs 0 hfail
  have hf1 : (senderRun 0 rs).1 = k := by rw [hrun, hlen]; simp
  have hkpos : 0 < k := hk
  have hstep : senderStep k s = (0, [SenderEvent.restored]) := by
    simp [senderStep, hs, hkpos]
  have hsingle : senderRun k [s] = (0, [SenderEvent.restored]) := by
    simp [senderRun, hstep]
  have hnor : SenderEvent.restored ∉ (senderRun 0 rs).2 :=
    senderRun_all_fail_no_restored rs 0 hfail
  refine ⟨?_, ?_, ?_⟩
  · rw [happ, hf1, hsingle]
  · rw [happ, hf1, hsingle]
    simp only [List.count_append]
    rw [List.count_eq_zero.2 hnor]
    simp
  · intro s2 hs2
    simp [senderStep, hs2]

/-- Witness for C4 at a concrete run: three timeouts then a 200 response
leave the streak at 0 with exactly one recovery event. -/
theorem C4_failure_streak_reset_witness :
    (senderRun 0 (List.replicate 3 (SendResult.exn "timeout") ++
        [SendResult.status 200])).1 = 0 ∧
    (senderRun 0 (List.replicate 3 (SendResult.exn "timeout") ++
        [SendResult.status 200])).2.count SenderEvent.restored = 1 :=
  ⟨(C4_failure_streak_reset 3 (by decide)
      (List.replicate 3 (SendResult.exn "timeout")) (by decide) (by decide)
      (SendResult.status 200) (by decide)).1,
   (C4_failure_streak_reset 3 (by decide)
      (List.replicate 3 (SendResult.exn "timeout")) (by decide) (by decide)
      (SendResult.status 200) (by decide)).2.1⟩

lemma sender_thread_attempts {α : Type} (entries : List (α × SendResult)) :
    ∀ f : ℕ,
      (sender_thread f (entries.map fun pr =>
        ((some pr.1 : Option α), pr.2))).2.2 = entries.map Prod.fst := by
  induction entries with
  | nil => intro f; simp [sender_thread]
  | cons e rest ih =>
      intro f
      obtain ⟨p, r⟩ := e
      simp [sender_thread, ih]

/-- C5: a delivery attempt succeeds exactly when the HTTP POST returns
status 200 — any raised transport error or timeout, and any non-200 status,
is a delivery failure; and for every queue content without the shutdown
sentinel, the worker attempts every dequeued payload exactly once, in FIFO
order, whatever the outcomes are (a failure never terminates or pauses the
worker, the failed snapshot is discarded and never requeued — the attempt
list is exactly the queue content, each item once). -/
theorem C5_success_iff_200_no_redelivery :
    (∀ code : ℕ, send_metrics (SendResult.status code) = (code == 200)) ∧
    (∀ e : String, send_metrics (SendResult.exn e) = false) ∧
    (∀ (f : ℕ) (entries : List (ℕ × SendResult)),
      (sender_thread f (entries.map fun pr =>
        ((some pr.1 : Option ℕ), pr.2))).2.2 = entries.map Prod.fst) :=
  ⟨fun _ => rfl, fun _ => rfl,
   fun f entries => sender_thread_attempts entries f⟩

/-! Registration handshake `register` and its use in `main`:
`for attempt in range(60)`, each attempt POSTs the identity payload inside a
try/except; a 200 response logs the assigned `table_name` and returns
`True` immediately, an exception logs a per-attempt warning, and every
non-returning attempt is followed by `time.sleep(5)`; after the loop the
function returns `False` and `main` exits with status 1. -/

/-- Outcome the network produces for one registration attempt: a raised
exception, or an HTTP status code together with the `table_name` field of
the JSON response body. -/
inductive RegResult where
  | exn (e : String)
  | status (code : ℕ) (table : String)
deriving DecidableEq

/-- Whether a registration attempt outcome is a success-status response. -/
def isSuccess200 (r : RegResult) : Bool :=
  match r with
  | .status 200 _ => true
  | _ => false

/-- Log events `register` can emit. -/
inductive RegEvent where
  | registered (table : String)
  | attemptWarn (attempt : ℕ)
deriving DecidableEq

/-- Observable trace of a `register` call: the returned boolean, the number
of POST attempts made, the number of `time.sleep(5)` delays performed, and
the log events in order. -/
structure RegTrace where
  ok : Bool
  attempts : ℕ
  sleeps : ℕ
  events : List RegEvent
deriving DecidableEq

/-- The retry loop of `register`, with `fuel` iterations left and `attempt`
the current 0-based loop index, given the outcome each attempt index would
get from the endpoint. A 200 response logs the assigned table and returns
`True` at once (no sleep); any exception logs a warning naming attempt
number `attempt + 1`; a non-200 status logs nothing; both failure kinds are
followed by one 5-second sleep before the next attempt. -/
def registerAux (resp : ℕ → RegResult) : ℕ → ℕ → RegTrace
  | _, 0 => ⟨false, 0, 0, []⟩
  | attempt, fuel + 1 =>
      match resp attempt with
      | .status code table =>
          if code = 200 then ⟨true, 1, 0, [.registered table]⟩
          else
            let t := registerAux resp (attempt + 1) fuel
            ⟨t.ok, t.attempts + 1, t.sleeps + 1, t.events⟩
      | .exn _ =>
          let t := registerAux resp (attempt + 1) fuel
          ⟨t.ok, t.attempts + 1, t.sleeps + 1,
           .attemptWarn (attempt + 1) :: t.events⟩

/-- Full trace of `register`: `for attempt in range(60)`. -/
def registerTrace (resp : ℕ → RegResult) : RegTrace :=
  registerAux resp 0 60

/-- Value `register` returns to its caller: a boolean success flag. -/
def register (resp : ℕ → RegResult) : Bool :=
  (registerTrace resp).ok

/-- Startup path of `main` around registration:
`if not register(): log.error(...); sys.exit(1)`; only afterwards are the
sender thread and the sampling loop started. `Except.error c` is a process
exit with status `c` before any sampling; `Except.ok ()` means sampling
begins. -/
def mainStartup (resp : ℕ → RegResult) : Except ℕ Unit :=
  if register resp then Except.ok () else Except.error 1

lemma registerAux_all_fail (resp : ℕ → RegResult)
    (hfail : ∀ i, isSuccess200 (resp i) = false) :
    ∀ (fuel attempt : ℕ),
      (registerAux resp attempt fuel).ok = false ∧
      (registerAux resp attempt fuel).attempts = fuel ∧
      (registerAux resp attempt fuel).sleeps = fuel := by
  intro fuel
  induction fuel with
  | zero => intro attempt; simp [registerAux]
  | succ n ih =>
      intro attempt
      have hrec := ih (attempt + 1)
      cases hra : resp attempt with
      | exn e =>
          simp [registerAux, hra, hrec.1, hrec.2.1, hrec.2.2]
      | status code table =>
          have hcode : code ≠ 200 := by
            intro hc
            have := hfail attempt
            rw [hra, hc] at this
            simp [isSuccess200] at this
          simp [registerAux, hra, hcode, hrec.1, hrec.2.1, hrec.2.2]

lemma registerAux_succeeds (resp : ℕ → RegResult) :
    ∀ (fuel attempt k : ℕ) (t : String), k < fuel →
      (∀ j, j < k → isSuccess200 (resp (attempt + j)) = false) →
      resp (attempt + k) = .status 200 t →
      (registerAux resp attempt fuel).ok = true ∧
      (registerAux resp attempt fuel).attempts = k + 1 ∧
      (registerAux resp attempt fuel).sleeps = k ∧
      RegEvent.registered t ∈ (registerAux resp attempt fuel).events := by
  intro fuel
  induction fuel with
  | zero => intro attempt k t hk; omega
  | succ n ih =>
      intro attempt k t hk hfail hsucc
      cases k with
      | zero =>
          rw [Nat.add_zero] at hsucc
          simp [registerAux, hsucc]
      | succ k' =>
          have hf0 : isSuccess200 (resp attempt) = false := by
            have := hfail 0 (Nat.succ_pos k')
            rwa [Nat.add_zero] at this
          have hrec := ih (attempt + 1) k' t (by omega)
            (fun j hj => by
              have := hfail (j + 1) (by omega)
              rwa [show attempt + (j + 1) = attempt + 1 + j by omega] at this)
            (by rwa [show attempt + 1 + k' = attempt + (k' + 1) by omega])
          cases hra : resp attempt with
          | exn e =>
              simp [registerAux, hra, hrec.1, hrec.2.1, hrec.2.2.1,
                hrec.2.2.2]
          | status code table =>
              have hcode : code ≠ 200 := by
                intro hc
                rw [hra, hc] at hf0
                simp [isSuccess200] at hf0
              simp [registerAux, hra, hcode, hrec.1, hrec.2.1, hrec.2.2.1,
                hrec.2.2.2]

/-- C7: against a registration endpoint that never returns a success
status, exactly 60 attempts are made, each followed by one 5-second delay
(60 sleeps in total), `register` reports failure and `main` exits with the
non-zero status 1 before any sampling begins; against an endpoint that
answers attempt 1 with a 200 response, the single first attempt is made and
no further attempts or delays occur. -/
theorem C7_registration_bound (resp : ℕ → RegResult)
    (hfail : ∀ i, isSuccess200 (resp i) = false) :
    register resp = false ∧
    (registerTrace resp).attempts = 60 ∧
    (registerTrace resp).sleeps = 60 ∧
    mainStartup resp = Except.error 1 ∧
    (∀ (resp2 : ℕ → RegResult) (t : String), resp2 0 = RegResult.status 200 t →
      register resp2 = true ∧ (registerTrace resp2).attempts = 1 ∧
      (registerTrace resp2).sleeps = 0) := by
  have h := registerAux_all_fail resp hfail 60 0
  refine ⟨?_, ?_, ?_, ?_, ?_⟩
  · exact h.1
  · exact h.2.1
  · exact h.2.2
  · simp [mainStartup, register, registerTrace, h.1]
  · intro resp2 t hsucc
    have h2 := registerAux_succeeds resp2 60 0 0 t (by omega)
      (fun j hj => absurd hj (Nat.not_lt_zero j)) (by simpa using hsucc)
    exact ⟨h2.1, h2.2.1, h2.2.2.1⟩

/-- Witness for C7: a concretely dead endpoint gives 60 attempts, 60
sleeps, a `False` return and exit status 1; a concretely immediate 200
gives one attempt and no sleep. -/
theorem C7_registration_bound_witness :
    register (fun _ => RegResult.exn "refused") = false ∧
    (registerTrace (fun _ => RegResult.exn "refused")).attempts = 60 ∧
    mainStartup (fun _ => RegResult.exn "refused") = Except.error 1 ∧
    register (fun _ => RegResult.status 200 "metrics_7") = true ∧
    (registerTrace (fun _ => RegResult.status 200 "metrics_7")).attempts = 1 :=
  ⟨(C7_registration_bound (fun _ => RegResult.exn "refused")
      (fun _ => rfl)).1,
   (C7_registration_bound (fun _ => RegResult.exn "refused")
      (fun _ => rfl)).2.1,
   (C7_registration_bound (fun _ => RegResult.exn "refused")
      (fun _ => rfl)).2.2.2.1,
   ((C7_registration_bound (fun _ => RegResult.exn "refused")
      (fun _ => rfl)).2.2.2.2 (fun _ => RegResult.status 200 "metrics_7")
      "metrics_7" rfl).1,
   ((C7_registration_bound (fun _ => RegResult.exn "refused")
      (fun _ => rfl)).2.2.2.2 (fun _ => RegResult.status 200 "metrics_7")
      "metrics_7" rfl).2.1⟩

/-- C9 counterexample: `register` does not return the endpoint's assigned
identifier to its caller. At two concrete endpoints whose 200 responses
carry different assigned table identifiers, the value returned to the
caller is the same bare boolean `true` — it is independent of the assigned
identifier, so the identifier is not returned (it is only logged). -/
theorem C9_counterexample_returns_bool :
    register (fun _ => RegResult.status 200 "metrics_A") = true ∧
    register (fun _ => RegResult.status 200 "metrics_B") = true ∧
    register (fun _ => RegResult.status 200 "metrics_A") =
      register (fun _ => RegResult.status 200 "metrics_B") := by
  refine ⟨rfl, rfl, rfl⟩

/-- C9 amended: when attempt `k` receives a success-status (200) response
after `k` failed attempts, registration succeeds at that attempt — exactly
`k + 1` attempts and `k` delays happen — the endpoint's assigned table
identifier is logged, and the boolean success flag `True` (not the
identifier) is returned to the caller. -/
theorem C9_success_logs_identifier (resp : ℕ → RegResult) (k : ℕ)
    (t : String) (hk : k < 60)
    (hfail : ∀ j, j < k → isSuccess200 (resp j) = false)
    (hsucc : resp k = RegResult.status 200 t) :
    register resp = true ∧
    (registerTrace resp).attempts = k + 1 ∧
    (registerTrace resp).sleeps = k ∧
    RegEvent.registered t ∈ (registerTrace resp).events := by
  have h := registerAux_succeeds resp 60 0 k t hk
    (fun j hj => by simpa using hfail j hj) (by simpa using hsucc)
  exact ⟨h.1, h.2.1, h.2.2.1, h.2.2.2⟩

/-- Witness for the amended C9: an endpoint that fails twice and then
assigns table `metrics_42` on the third attempt. -/
theorem C9_success_logs_identifier_witness :
    register (fun i => if i < 2 then RegResult.exn "refused"
      else RegResult.status 200 "metrics_42") = true ∧
    (registerTrace (fun i => if i < 2 then RegResult.exn "refused"
      else RegResult.status 200 "metrics_42")).attempts = 3 ∧
    (registerTrace (fun i => if i < 2 then RegResult.exn "refused"
      else RegResult.status 200 "metrics_42")).sleeps = 2 ∧
    RegEvent.registered "metrics_42" ∈
      (registerTrace (fun i => if i < 2 then RegResult.exn "refused"
        else RegResult.status 200 "metrics_42")).events :=
  C9_success_logs_identifier
    (fun i => if i < 2 then RegResult.exn "refused"
      else RegResult.status 200 "metrics_42")
    2 "metrics_42" (by decide)
    (fun j hj => by interval_cases j <;> rfl)
    (by rfl)

/-! Network-rate computation of `collect_metrics`: the module state
`_net_prev, _net_ts` (previous counters and timestamp, both initially
`None`), the guard `if _net_prev and _net_ts:`, the denominator
`dt = ts_now - _net_ts or 1`, the four `max(0, delta) / dt` rates, the
`round(·, 2)` applied when the snapshot dictionary is built, and the
unconditional state update. -/

/-- Cumulative OS counters of `psutil.net_io_counters()`. -/
structure NetCounters where
  bytes_sent : ℕ
  bytes_recv : ℕ
  packets_sent : ℕ
  packets_recv : ℕ
deriving DecidableEq

/-- The four network-rate values of one snapshot. -/
structure NetRates where
  net_bytes_sent : ℚ
  net_bytes_recv : ℚ
  net_packets_sent : ℚ
  net_packets_recv : ℚ
deriving DecidableEq

/-- Denominator `dt = ts_now - _net_ts or 1`: Python's `or` replaces a zero
(falsy) difference by 1 and keeps any non-zero difference. -/
def dtUsed (pts ts : ℚ) : ℚ := if ts - pts = 0 then 1 else ts - pts

/-- Python `round(q, 2)` on the exact rational value. -/
def round2 (q : ℚ) : ℚ := ((round (q * 100) : ℤ) : ℚ) / 100

/-- The rate computation of `collect_metrics` given the module state
(previous counters and timestamp, `none` on the very first invocation), the
fresh counters and the fresh timestamp. The guard
`if _net_prev and _net_ts:` falls to the zero branch when there is no
previous sample or when the stored timestamp is the falsy `0.0`; otherwise
each rate is `max(0, now - prev) / dt`. -/
def ratesCalc (st : Option (NetCounters × ℚ)) (c : NetCounters) (ts : ℚ) :
    NetRates :=
  match st with
  | some (p, pts) =>
      if pts = 0 then ⟨0, 0, 0, 0⟩
      else
        ⟨max 0 ((c.bytes_sent : ℚ) - (p.bytes_sent : ℚ)) / dtUsed pts ts,
         max 0 ((c.bytes_recv : ℚ) - (p.bytes_recv : ℚ)) / dtUsed pts ts,
         max 0 ((c.packets_sent : ℚ) - (p.packets_sent : ℚ)) / dtUsed pts ts,
         max 0 ((c.packets_recv : ℚ) - (p.packets_recv : ℚ)) / dtUsed pts ts⟩
  | none => ⟨0, 0, 0, 0⟩

/-- The whole net block of `collect_metrics`: compute the rates and
unconditionally store the fresh counters and timestamp
(`_net_prev = net_now; _net_ts = ts_now`). -/
def collectNet (st : Option (NetCounters × ℚ)) (c : NetCounters) (ts : ℚ) :
    NetRates × Option (NetCounters × ℚ) :=
  (ratesCalc st c ts, some (c, ts))

/-- The four net fields as they appear in the returned snapshot dictionary:
`round(rate, 2)` applied to each. -/
def netSnapshotFields (r : NetRates) : NetRates :=
  ⟨round2 r.net_bytes_sent, round2 r.net_bytes_recv,
   round2 r.net_packets_sent, round2 r.net_packets_recv⟩

lemma round2_zero : round2 0 = 0 := by
  simp [round2]

lemma round2_nonneg (q : ℚ) (h : 0 ≤ q) : 0 ≤ round2 q := by
  unfold round2
  apply div_nonneg _ (by norm_num)
  have : (0 : ℤ) ≤ round (q * 100) := by
    rw [round_eq]
    rw [Int.le_floor]
    push_cast
    nlinarith
  exact_mod_cast this

lemma dtUsed_ne_zero (pts ts : ℚ) : dtUsed pts ts ≠ 0 := by
  unfold dtUsed
  split
  · exact one_ne_zero
  · assumption

lemma dtUsed_pos (pts ts : ℚ) (h : pts ≤ ts) : 0 < dtUsed pts ts := by
  unfold dtUsed
  split
  · exact one_pos
  · rename_i hne
    have : 0 ≤ ts - pts := by linarith
    exact lt_of_le_of_ne this (Ne.symm hne)

/-- C8: on the very first invocation of the net computation (no
previous-sample baseline) all four network-rate fields of the produced
snapshot are the numeric value 0 — total rational values, not an absent
or null field — and the fresh sample is stored as the new baseline; on a
subsequent invocation (a stored baseline with a non-zero timestamp) each
field is the delta against the previous sample divided by the elapsed
time. -/
theorem C8_first_tick_rates_zero (c p : NetCounters) (ts pts : ℚ) :
    ratesCalc none c ts = ⟨0, 0, 0, 0⟩ ∧
    netSnapshotFields (ratesCalc none c ts) = ⟨0, 0, 0, 0⟩ ∧
    (collectNet none c ts).2 = some (c, ts) ∧
    (pts ≠ 0 →
      ratesCalc (some (p, pts)) c ts =
        ⟨max 0 ((c.bytes_sent : ℚ) - (p.bytes_sent : ℚ)) / dtUsed pts ts,
         max 0 ((c.bytes_recv : ℚ) - (p.bytes_recv : ℚ)) / dtUsed pts ts,
         max 0 ((c.packets_sent : ℚ) - (p.packets_sent : ℚ)) / dtUsed pts ts,
         max 0 ((c.packets_recv : ℚ) - (p.packets_recv : ℚ)) /
           dtUsed pts ts⟩) := by
  refine ⟨rfl, ?_, rfl, ?_⟩
  · simp [ratesCalc, netSnapshotFields, round2_zero]
  · intro hpts
    simp [ratesCalc, hpts]

/-- Witness for C8 at concrete inputs: a first tick yields all-zero fields,
and a second tick one second later with counters grown by 100, 200, 3, 4
yields those deltas per second. -/
theorem C8_first_tick_rates_zero_witness :
    ratesCalc none (NetCounters.mk 100 200 3 4) (10 : ℚ) = ⟨0, 0, 0, 0⟩ ∧
    ratesCalc (some (NetCounters.mk 0 0 0 0, (9 : ℚ)))
        (NetCounters.mk 100 200 3 4) 10 =
      ⟨max 0 ((100 : ℚ) - (0 : ℚ)) / dtUsed 9 10,
       max 0 ((200 : ℚ) - (0 : ℚ)) / dtUsed 9 10,
       max 0 ((3 : ℚ) - (0 : ℚ)) / dtUsed 9 10,
       max 0 ((4 : ℚ) - (0 : ℚ)) / dtUsed 9 10⟩ :=
  ⟨(C8_first_tick_rates_zero (NetCounters.mk 100 200 3 4)
      (NetCounters.mk 0 0 0 0) 10 9).1,
   by
    have h := (C8_first_tick_rates_zero (NetCounters.mk 100 200 3 4)
      (NetCounters.mk 0 0 0 0) 10 9).2.2.2 (by norm_num)
    simpa using h⟩

/-- C10: the network-rate computation is division-safe and sign-safe — the
denominator actually used is never zero (a zero elapsed time is replaced by
1), and with a non-decreasing clock every one of the four rate fields, both
as computed and as rounded into the snapshot, is non-negative for all
counter values, including counters that decreased since the previous
sample. -/
theorem C10_rates_div_safe_nonneg (p c : NetCounters) (pts ts : ℚ)
    (h : pts ≤ ts) :
    (∀ a b : ℚ, dtUsed a b ≠ 0) ∧
    0 < dtUsed pts ts ∧
    (0 ≤ (ratesCalc (some (p, pts)) c ts).net_bytes_sent ∧
     0 ≤ (ratesCalc (some (p, pts)) c ts).net_bytes_recv ∧
     0 ≤ (ratesCalc (some (p, pts)) c ts).net_packets_sent ∧
     0 ≤ (ratesCalc (some (p, pts)) c ts).net_packets_recv) ∧
    (0 ≤ (netSnapshotFields (ratesCalc (some (p, pts)) c ts)).net_bytes_sent ∧
     0 ≤ (netSnapshotFields (ratesCalc (some (p, pts)) c ts)).net_bytes_recv ∧
     0 ≤ (netSnapshotFields
            (ratesCalc (some (p, pts)) c ts)).net_packets_sent ∧
     0 ≤ (netSnapshotFields
            (ratesCalc (some (p, pts)) c ts)).net_packets_recv) := by
  have hpos := dtUsed_pos pts ts h
  have hrates : 0 ≤ (ratesCalc (some (p, pts)) c ts).net_bytes_sent ∧
      0 ≤ (ratesCalc (some (p, pts)) c ts).net_bytes_recv ∧
      0 ≤ (ratesCalc (some (p, pts)) c ts).net_packets_sent ∧
      0 ≤ (ratesCalc (some (p, pts)) c ts).net_packets_recv := by
    by_cases hpz : pts = 0
    · simp [ratesCalc, hpz]
    · simp only [ratesCalc, if_neg hpz]
      exact ⟨div_nonneg (le_max_left 0 _) hpos.le,
             div_nonneg (le_max_left 0 _) hpos.le,
             div_nonneg (le_max_left 0 _) hpos.le,
             div_nonneg (le_max_left 0 _) hpos.le⟩
  exact ⟨dtUsed_ne_zero, hpos, hrates,
         round2_nonneg _ hrates.1, round2_nonneg _ hrates.2.1,
         round2_nonneg _ hrates.2.2.1, round2_nonneg _ hrates.2.2.2⟩

/-- Witness for C10 at concrete inputs where both guarded cases fire: the
elapsed time is zero (denominator replaced by 1) and every counter
decreased since the previous sample; all four fields are still 0 ≥ 0 and
the denominator is the non-zero 1. -/
theorem C10_rates_div_safe_nonneg_witness :
    dtUsed (7 : ℚ) 7 ≠ 0 ∧
    0 < dtUsed (7 : ℚ) 7 ∧
    0 ≤ (ratesCalc (some (NetCounters.mk 10 10 10 10, (7 : ℚ)))
          (NetCounters.mk 1 2 3 4) 7).net_bytes_sent ∧
    0 ≤ (netSnapshotFields (ratesCalc
          (some (NetCounters.mk 10 10 10 10, (7 : ℚ)))
          (NetCounters.mk 1 2 3 4) 7)).net_packets_recv :=
  ⟨(C10_rates_div_safe_nonneg (NetCounters.mk 10 10 10 10)
      (NetCounters.mk 1 2 3 4) 7 7 (le_refl 7)).1 7 7,
   (C10_rates_div_safe_nonneg (NetCounters.mk 10 10 10 10)
      (NetCounters.mk 1 2 3 4) 7 7 (le_refl 7)).2.1,
   (C10_rates_div_safe_nonneg (NetCounters.mk 10 10 10 10)
      (NetCounters.mk 1 2 3 4) 7 7 (le_refl 7)).2.2.1.1,
   (C10_rates_div_safe_nonneg (NetCounters.mk 10 10 10 10)
      (NetCounters.mk 1 2 3 4) 7 7 (le_refl 7)).2.2.2.2.2.2⟩

end Agent
